import Mathlib

/-!
Shallow embedding of `transaction_generator_12m.py` (FinBuddy-AI).

Randomness: every call into Python's seeded global generators (`random`,
`np.random`, `scipy.stats.dirichlet.rvs`) is modelled by an explicit stream of
natural-number draws threaded through the functions, so each primitive draw is
an arbitrary value in the range the library guarantees.

Rounding: Python's `round` rounds halves to even, Mathlib's `round` rounds
halves up; they agree away from exact half-integer arguments, and every
statement below is insensitive to the tie-breaking rule.
-/

set_option linter.unusedVariables false

/-- Deterministic stream of natural-number draws standing for the seeded
process-wide pseudo-random generator. -/
structure Rng where
  stream : Nat → Nat

/-- Take one draw and advance the stream. -/
def Rng.next (g : Rng) : Nat × Rng :=
  (g.stream 0, ⟨fun n => g.stream (n + 1)⟩)

/-- Advance the stream by `n` draws. -/
def Rng.drop (g : Rng) (n : Nat) : Rng :=
  ⟨fun k => g.stream (k + n)⟩

/-- Python `random.randint(a, b)`: one draw mapped into `[a, b]`
(for `a ≤ b`, the only way the program calls it). -/
def randint (a b : Nat) (g : Rng) : Nat × Rng :=
  let p := g.next
  (a + p.1 % (b + 1 - a), p.2)

/-- Python `random.random()`: one draw mapped into `[0, 1)`. -/
def randFloat (g : Rng) : ℚ × Rng :=
  let p := g.next
  ((p.1 % 1000000 : ℕ) / 1000000, p.2)

/-- Abstraction of `scipy.stats.dirichlet.rvs([alpha] * n, size=1)[0]`: an
arbitrary probability vector of length `n` driven by the stream (`n` draws,
normalized; `alpha` only shapes the distribution of the library call, not its
support, so it does not constrain the model). -/
def dirichletSample (n : Nat) (g : Rng) : List ℚ × Rng :=
  let draws := (List.range n).map (fun i => g.stream i)
  let s : ℕ := draws.sum
  if s = 0 then (List.replicate n ((1 : ℚ) / n), g.drop n)
  else (draws.map (fun x : Nat => (x : ℚ) / (s : ℚ)), g.drop n)

/-- Python `max(xs)` on a nonempty integer list. -/
def listMax : List ℤ → ℤ
  | [] => 0
  | x :: xs => xs.foldl max x

/-- Python `xs.index(max(xs))`: index of the first occurrence of the maximum. -/
def maxIdx (xs : List ℤ) : Nat := xs.indexOf (listMax xs)

/-- Python `xs[i] += d` (no-op when `i` is out of range, which never happens
in the program). -/
def addAt (xs : List ℤ) (i : Nat) (d : ℤ) : List ℤ :=
  xs.set i (xs.getD i 0 + d)

/-- Source lines 205-210: for every zero entry the code adds `0` to the current
maximum (`+= 0`, kept exactly as in the source: a no-op pass). -/
def zeroMergePass (amts : List ℤ) : List ℤ :=
  if amts.any (fun a => a == 0) then
    amts.foldl (fun cur a => if a == 0 then addAt cur (maxIdx cur) 0 else cur) amts
  else amts

/-- Flexible branch of `generate_smart_transaction_amounts`
(source lines 197-211). -/
def flexibleSplit (total : ℤ) (num_trans : Nat) (g : Rng) : List ℤ × Rng :=
  let pr := dirichletSample num_trans g
  let amts := pr.1.map (fun p => round (p * (total : ℚ)))
  let diff := total - amts.sum
  let amts := if diff ≠ 0 then addAt amts (maxIdx amts) diff else amts
  (zeroMergePass amts, pr.2)

/-- Core of the strict branch (source lines 222-237): floor reservation,
remainder split, drift correction. -/
def strictCore (total : ℤ) (num_trans : Nat) (min_amount : ℤ) (g : Rng) :
    List ℤ × Rng :=
  let reserved : ℤ := (num_trans : ℤ) * min_amount
  let remaining := total - reserved
  if remaining ≤ 0 then
    let base := List.replicate num_trans min_amount
    let diff := total - base.sum
    (if diff ≠ 0 then addAt base (base.length - 1) diff else base, g)
  else
    let pr := dirichletSample num_trans g
    let extras := pr.1.map (fun p => round (p * (remaining : ℚ)))
    let amounts := extras.map (fun e => min_amount + e)
    let diff := total - amounts.sum
    (if diff ≠ 0 then addAt amounts (maxIdx amounts) diff else amounts, pr.2)

/-- Strict branch of `generate_smart_transaction_amounts`
(source lines 213-237), including the count-feasibility reduction. -/
def strictSplit (total : ℤ) (num_trans : Nat) (min_amount : ℤ) (g : Rng) :
    List ℤ × Rng :=
  if total < (num_trans : ℤ) * min_amount then
    let feasible : ℤ := max 1 (Int.fdiv total min_amount)
    if feasible = 0 then ([total], g)
    else strictCore total feasible.toNat min_amount g
  else strictCore total num_trans min_amount g

/-- `generate_smart_transaction_amounts` (source lines 183-237). -/
def generate_smart_transaction_amounts (total_amount : ℚ) (num_trans : Nat)
    (alpha : ℚ) (min_amount : ℤ) (threshold : ℚ) (g : Rng) : List ℤ × Rng :=
  let total : ℤ := round total_amount
  if total ≤ 0 then ([], g)
  else if num_trans ≤ 1 then ([total], g)
  else if (total : ℚ) < threshold then flexibleSplit total num_trans g
  else strictSplit total num_trans min_amount g

/-- Gregorian leap year, as implemented by Python's `datetime`. -/
def isLeap (y : Nat) : Bool := y % 4 = 0 ∧ (y % 100 ≠ 0 ∨ y % 400 = 0)

/-- `get_days_in_month` (source lines 239-242): the `datetime` subtraction
computes exactly the calendar length of the month. -/
def get_days_in_month (year month : Nat) : Nat :=
  if month = 2 then (if isLeap year then 29 else 28)
  else if month = 4 ∨ month = 6 ∨ month = 9 ∨ month = 11 then 30
  else 31

/-- A `datetime.datetime` value as constructed by the generator. -/
structure DateTimeV where
  year : Nat
  month : Nat
  day : Nat
  hour : Nat
  minute : Nat
deriving DecidableEq, Repr

/-- Chronological sort key (fields are bounded: month ≤ 12, day ≤ 31,
hour ≤ 23, minute ≤ 59, so this encoding is order-faithful). -/
def dtKey (d : DateTimeV) : Nat :=
  (((d.year * 16 + d.month) * 32 + d.day) * 24 + d.hour) * 60 + d.minute

/-- Python `sorted(dates)` (source line 302). -/
def sortDates (ds : List DateTimeV) : List DateTimeV :=
  ds.mergeSort (fun a b => dtKey a ≤ dtKey b)

/-- Day of week as Python `datetime.weekday()` (Monday = 0), via Zeller's
congruence. -/
def weekday (y m d : Nat) : Nat :=
  let yy := if m ≤ 2 then y - 1 else y
  let mm := if m ≤ 2 then m + 12 else m
  let k := yy % 100
  let j := yy / 100
  ((d + (13 * (mm + 1)) / 5 + k + k / 4 + j / 4 + 5 * j) % 7 + 5) % 7

/-- Python `random.sample(pop, k)` for `k ≤ len(pop)`: `k` distinct positions,
drawn by index from the shrinking population. -/
def sampleK (l : List Nat) (k : Nat) (g : Rng) : List Nat × Rng :=
  match k, l with
  | 0, _ => ([], g)
  | _ + 1, [] => ([], g)
  | k' + 1, a :: l' =>
    let pop := a :: l'
    let p := g.next
    let i := p.1 % pop.length
    let d := pop.getD i 0
    let rest := sampleK (pop.eraseIdx i) k' p.2
    (d :: rest.1, rest.2)

/-- The `while len(chosen) < num_trans` loop of the `fixed` bias branch
(source lines 254-258), with enough fuel to run to completion. -/
def fixedChoose (available : List Nat) (need : Nat) :
    Nat → Rng → List Nat → List Nat × Rng
  | 0, g, chosen => (chosen, g)
  | fuel + 1, g, chosen =>
    if chosen.length < need then
      let s := sampleK available (min available.length (need - chosen.length)) g
      let chosen' := chosen ++ s.1
      if available.isEmpty then (chosen', s.2)
      else fixedChoose available need fuel s.2 chosen'
    else (chosen, g)

/-- `for d in chosen[:num_trans]: dates.append(datetime(year, month, d,
randint(0,23), randint(0,59)))` (source lines 259-260). -/
def datesFromDays (year month hlo hhi : Nat) :
    List Nat → Rng → List DateTimeV × Rng
  | [], g => ([], g)
  | d :: ds, g =>
    let h := randint hlo hhi g
    let mi := randint 0 59 h.2
    let rest := datesFromDays year month hlo hhi ds mi.2
    (⟨year, month, d, h.1, mi.1⟩ :: rest.1, rest.2)

/-- The `early_month` branch body (source lines 262-265): each transaction gets
`randint(1, min(10, days_in_month))` as day and hours 8-20. -/
def drawSimpleDates (year month dlo dhi hlo hhi : Nat) :
    Nat → Rng → List DateTimeV × Rng
  | 0, g => ([], g)
  | n + 1, g =>
    let d := randint dlo dhi g
    let h := randint hlo hhi d.2
    let mi := randint 0 59 h.2
    let rest := drawSimpleDates year month dlo dhi hlo hhi n mi.2
    (⟨year, month, d.1, h.1, mi.1⟩ :: rest.1, rest.2)

/-- The biased accept/reject loop of the `weekend` and `weekday` branches
(source lines 269-275 and 281-287); `wantWeekend` selects the predicate; fuel
is the `tries < num_trans * 5` bound. `random.random()` is drawn only when the
weekday test fails (Python's `or` short-circuits). -/
def biasedTryLoop (year month dim need hlo hhi : Nat) (wantWeekend : Bool)
    (acceptP : ℚ) : Nat → List DateTimeV → Rng → List DateTimeV × Rng
  | 0, acc, g => (acc, g)
  | fuel + 1, acc, g =>
    if acc.length < need then
      let d := randint 1 dim g
      let h := randint hlo hhi d.2
      let mi := randint 0 59 h.2
      let dt : DateTimeV := ⟨year, month, d.1, h.1, mi.1⟩
      let wd := weekday year month d.1
      let hit := if wantWeekend then 5 ≤ wd else wd < 5
      let step : Bool × Rng :=
        if hit then (true, mi.2)
        else
          let r := randFloat mi.2
          (r.1 < acceptP, r.2)
      let acc' := if step.1 then acc ++ [dt] else acc
      biasedTryLoop year month dim need hlo hhi wantWeekend acceptP fuel acc' step.2
    else (acc, g)

/-- The fallback `while len(dates) < num_trans` fill loop of the `weekend` and
`weekday` branches (source lines 276-278 and 288-290): it runs exactly
`num_trans - len(dates)` times, the count passed here. -/
def fillDates (year month dim hlo hhi : Nat) :
    Nat → List DateTimeV → Rng → List DateTimeV × Rng
  | 0, acc, g => (acc, g)
  | n + 1, acc, g =>
    let d := randint 1 dim g
    let h := randint hlo hhi d.2
    let mi := randint 0 59 h.2
    fillDates year month dim hlo hhi n (acc ++ [⟨year, month, d.1, h.1, mi.1⟩]) mi.2

/-- Configuration record for one expense category (`TRANSACTION_MODEL` values,
source lines 37-176). -/
structure CatConfig where
  trans_range : Nat × Nat
  min_transaction_amount : ℤ
  allow_below_min_threshold : ℚ
  date_bias : String
  specific_days : Option (List Nat) := none
  merchants : List String
  payment_weights : List (String × ℚ)
  online_probability : ℚ
  dirichlet_alpha : ℚ

/-- `generate_dates_with_bias` (source lines 244-303). -/
def generate_dates_with_bias (year month num_trans : Nat) (date_bias : String)
    (cfg : CatConfig) (g : Rng) : List DateTimeV × Rng :=
  let dim := get_days_in_month year month
  if num_trans = 0 then ([], g)
  else if date_bias = "fixed" ∧ cfg.specific_days.isSome then
    let available := (cfg.specific_days.getD []).filter (fun d => d ≤ dim)
    let ch := fixedChoose available num_trans (num_trans + 1) g []
    let ds := datesFromDays year month 0 23 (ch.1.take num_trans) ch.2
    (sortDates ds.1, ds.2)
  else if date_bias = "early_month" then
    let ds := drawSimpleDates year month 1 (min 10 dim) 8 20 num_trans g
    (sortDates ds.1, ds.2)
  else if date_bias = "weekend" then
    let t := biasedTryLoop year month dim num_trans 10 21 true (3 / 10) (num_trans * 5) [] g
    let f := fillDates year month dim 10 21 (num_trans - t.1.length) t.1 t.2
    (sortDates f.1, f.2)
  else if date_bias = "weekday" then
    let t := biasedTryLoop year month dim num_trans 7 20 false (2 / 10) (num_trans * 5) [] g
    let f := fillDates year month dim 7 20 (num_trans - t.1.length) t.1 t.2
    (sortDates f.1, f.2)
  else if date_bias = "mid_to_late_month" then
    let ds := drawSimpleDates year month 10 (min 25 dim) 11 21 num_trans g
    (sortDates ds.1, ds.2)
  else
    let ds := drawSimpleDates year month 1 dim 6 23 num_trans g
    (sortDates ds.1, ds.2)

/-- `select_payment_method` (source lines 305-308): the weighted
`random.choices` call is modelled as a stream-driven selection among the
method names. -/
def select_payment_method (weights : List (String × ℚ)) (g : Rng) : String × Rng :=
  let p := g.next
  ((weights.map Prod.fst).getD (p.1 % weights.length) "", p.2)

/-- `TRANSACTION_MODEL["food_expense"]` (source lines 37-176). -/
def foodConfig : CatConfig :=
  { trans_range := (15, 50), min_transaction_amount := 100,
       allow_below_min_threshold := 150, date_bias := "uniform",
       merchants := ["Zomato", "Swiggy", "Local Restaurant", "Cafe Coffee Day",
         "Dominos", "McDonald's", "Subway", "Haldiram's", "Street Food",
         "Biryani House", "KFC", "Pizza Hut", "Burger King", "Food Court", "Dhaba"],
       payment_weights := [("UPI", 50/100), ("Credit Card", 20/100),
         ("Debit Card", 15/100), ("Cash", 15/100)],
       online_probability := 70/100, dirichlet_alpha := 1}

/-- `TRANSACTION_MODEL["groceries_expense"]` (source lines 37-176). -/
def groceriesConfig : CatConfig :=
  { trans_range := (2, 8), min_transaction_amount := 100,
       allow_below_min_threshold := 200, date_bias := "weekend",
       specific_days := some [6, 13, 20, 27],
       merchants := ["DMart", "Big Bazaar", "Reliance Fresh", "More Supermarket",
         "Spencer's", "Local Kirana", "24Seven", "Nature's Basket"],
       payment_weights := [("UPI", 40/100), ("Credit Card", 25/100),
         ("Debit Card", 25/100), ("Cash", 10/100)],
       online_probability := 30/100, dirichlet_alpha := 2}

/-- `TRANSACTION_MODEL["education_expense"]` (source lines 37-176). -/
def educationConfig : CatConfig :=
  { trans_range := (1, 3), min_transaction_amount := 300,
       allow_below_min_threshold := 400, date_bias := "early_month",
       specific_days := some [1, 5, 10],
       merchants := ["Course Fee", "Udemy", "Coursera", "Books", "Study Material",
         "Tuition", "Library", "Online Class", "Exam Fee"],
       payment_weights := [("UPI", 30/100), ("Credit Card", 30/100),
         ("Debit Card", 25/100), ("Net Banking", 15/100)],
       online_probability := 80/100, dirichlet_alpha := 3}

/-- `TRANSACTION_MODEL["subscriptions_expense"]` (source lines 37-176). -/
def subscriptionsConfig : CatConfig :=
  { trans_range := (1, 3), min_transaction_amount := 100,
       allow_below_min_threshold := 150, date_bias := "fixed",
       specific_days := some [1, 5, 15, 25],
       merchants := ["Netflix", "Amazon Prime", "Spotify", "Hotstar",
         "Gym Membership", "Newspaper", "Magazine", "Cloud Storage",
         "Software License"],
       payment_weights := [("Credit Card", 50/100), ("UPI", 30/100),
         ("Debit Card", 20/100)],
       online_probability := 95/100, dirichlet_alpha := 5}

/-- `TRANSACTION_MODEL["fuel_expense"]` (source lines 37-176). -/
def fuelConfig : CatConfig :=
  { trans_range := (4, 10), min_transaction_amount := 50,
       allow_below_min_threshold := 100, date_bias := "uniform",
       merchants := ["HP Petrol Pump", "Indian Oil", "Bharat Petroleum", "Shell",
         "Essar Petrol Pump", "Reliance Petrol"],
       payment_weights := [("UPI", 45/100), ("Credit Card", 30/100),
         ("Debit Card", 15/100), ("Cash", 10/100)],
       online_probability := 20/100, dirichlet_alpha := 15/10}

/-- `TRANSACTION_MODEL["transportation_expense"]` (source lines 37-176). -/
def transportationConfig : CatConfig :=
  { trans_range := (15, 30), min_transaction_amount := 50,
       allow_below_min_threshold := 100, date_bias := "weekday",
       merchants := ["Uber", "Ola", "Metro Card", "Auto Rickshaw", "Bus Pass",
         "Rapido", "Local Train", "Parking", "Toll"],
       payment_weights := [("UPI", 60/100), ("Cash", 25/100),
         ("Debit Card", 10/100), ("Credit Card", 5/100)],
       online_probability := 75/100, dirichlet_alpha := 8/10}

/-- `TRANSACTION_MODEL["utilities_expense"]` (source lines 37-176). -/
def utilitiesConfig : CatConfig :=
  { trans_range := (2, 5), min_transaction_amount := 100,
       allow_below_min_threshold := 150, date_bias := "early_month",
       specific_days := some [1, 3, 5, 7],
       merchants := ["Electricity Bill", "Water Bill", "Gas Cylinder",
         "Internet Bill", "Mobile Recharge", "DTH Recharge", "Maintenance Charge"],
       payment_weights := [("Net Banking", 40/100), ("UPI", 35/100),
         ("Debit Card", 15/100), ("Credit Card", 10/100)],
       online_probability := 90/100, dirichlet_alpha := 35/10}

/-- `TRANSACTION_MODEL["entertainment_expense"]` (source lines 37-176). -/
def entertainmentConfig : CatConfig :=
  { trans_range := (3, 10), min_transaction_amount := 150,
       allow_below_min_threshold := 250, date_bias := "weekend",
       merchants := ["BookMyShow", "PVR Cinemas", "Inox", "Gaming",
         "Concert Ticket", "Sports Event", "Museum", "Theme Park", "Club Entry"],
       payment_weights := [("UPI", 45/100), ("Credit Card", 30/100),
         ("Debit Card", 15/100), ("Cash", 10/100)],
       online_probability := 85/100, dirichlet_alpha := 15/10}

/-- `TRANSACTION_MODEL["shopping_expense"]` (source lines 37-176). -/
def shoppingConfig : CatConfig :=
  { trans_range := (3, 8), min_transaction_amount := 100,
       allow_below_min_threshold := 200, date_bias := "mid_to_late_month",
       specific_days := some [10, 12, 15, 18, 20, 22, 25],
       merchants := ["Amazon", "Flipkart", "Myntra", "Ajio", "Lifestyle",
         "Pantaloons", "Westside", "Local Shop", "Decathlon", "Electronics Store"],
       payment_weights := [("Credit Card", 35/100), ("UPI", 40/100),
         ("Debit Card", 15/100), ("Cash", 10/100)],
       online_probability := 70/100, dirichlet_alpha := 12/10}

/-- `TRANSACTION_MODEL["healthcare_expense"]` (source lines 37-176). -/
def healthcareConfig : CatConfig :=
  { trans_range := (1, 3), min_transaction_amount := 350,
       allow_below_min_threshold := 500, date_bias := "random",
       merchants := ["Apollo Pharmacy", "MedPlus", "Doctor Consultation",
         "Lab Test", "Hospital", "Dental Clinic", "Physiotherapy", "Health Checkup"],
       payment_weights := [("UPI", 35/100), ("Cash", 30/100),
         ("Credit Card", 20/100), ("Debit Card", 15/100)],
       online_probability := 40/100, dirichlet_alpha := 25/10}

/-- `TRANSACTION_MODEL["personal_care_expense"]` (source lines 37-176). -/
def personalCareConfig : CatConfig :=
  { trans_range := (2, 6), min_transaction_amount := 270,
       allow_below_min_threshold := 400, date_bias := "weekend",
       merchants := ["Salon", "Spa", "Barber Shop", "Beauty Parlor", "Cosmetics",
         "Personal Care Products", "Grooming", "Wellness Center"],
       payment_weights := [("UPI", 40/100), ("Cash", 35/100),
         ("Credit Card", 15/100), ("Debit Card", 10/100)],
       online_probability := 35/100, dirichlet_alpha := 2}

/-- `TRANSACTION_MODEL["miscellaneous_expense"]` (source lines 37-176). -/
def miscellaneousConfig : CatConfig :=
  { trans_range := (5, 20), min_transaction_amount := 150,
       allow_below_min_threshold := 250, date_bias := "uniform",
       merchants := ["Gifts", "Charity", "Emergency", "Repairs", "Services",
         "Miscellaneous", "Courier", "ATM Withdrawal", "Bank Charges"],
       payment_weights := [("UPI", 40/100), ("Cash", 30/100),
         ("Credit Card", 15/100), ("Debit Card", 15/100)],
       online_probability := 50/100, dirichlet_alpha := 7/10}

/-- `TRANSACTION_MODEL` (source lines 37-176), transcribed field by field;
weights are the source decimals as rationals. -/
def TRANSACTION_MODEL : List (String × CatConfig) :=
  [ ("food_expense", foodConfig),
    ("groceries_expense", groceriesConfig),
    ("education_expense", educationConfig),
    ("subscriptions_expense", subscriptionsConfig),
    ("fuel_expense", fuelConfig),
    ("transportation_expense", transportationConfig),
    ("utilities_expense", utilitiesConfig),
    ("entertainment_expense", entertainmentConfig),
    ("shopping_expense", shoppingConfig),
    ("healthcare_expense", healthcareConfig),
    ("personal_care_expense", personalCareConfig),
    ("miscellaneous_expense", miscellaneousConfig) ]

/-- `EXPENSE_CATEGORIES = list(TRANSACTION_MODEL.keys())` (source line 178). -/
def EXPENSE_CATEGORIES : List String := TRANSACTION_MODEL.map Prod.fst

/-- The flexible-mode transaction-count draw (source line 326). -/
def flexibleCount (min_trans : Nat) (g : Rng) : Nat × Rng :=
  randint 1 (max 1 (min_trans / 2)) g

/-- The strict-mode transaction-count draw with archetype bias
(source lines 328-337). -/
def strictCount (total_amount : ℚ) (min_trans max_trans : Nat) (min_amt : ℤ)
    (archetype : String) (g : Rng) : Nat × Rng :=
  let max_possible : Nat := max 1 (Int.toNat ⌊total_amount / (min_amt : ℚ)⌋)
  let max_t := min max_trans max_possible
  let min_t := min min_trans max_possible
  if archetype = "impulsive_spender" then
    randint min_t (min_t + max 0 ((max_t - min_t) / 2)) g
  else if archetype = "meticulous_tracker" ∨ archetype = "balanced_planner" then
    randint (min_t + max 0 ((max_t - min_t) / 2)) max_t g
  else
    randint min_t max_t g

/-- The transaction-count selection of `generate_transactions_for_category`
(source lines 324-337): flexible draw below the threshold, archetype-biased
strict draw at or above it. -/
def pickNumTrans (total_amount : ℚ) (threshold : ℚ) (min_trans max_trans : Nat)
    (min_amt : ℤ) (archetype : String) (g : Rng) : Nat × Rng :=
  if total_amount < threshold then flexibleCount min_trans g
  else strictCount total_amount min_trans max_trans min_amt archetype g

/-- One generated transaction (the dict built at source lines 354-361). -/
structure Txn where
  date : DateTimeV
  amount : ℤ
  merchant : String
  payment_method : String
  is_online : Bool
  category : String
deriving DecidableEq, Repr

/-- The per-amount assembly loop of `generate_transactions_for_category`
(source lines 348-361): merchant choice, weighted payment method, online flag,
positional date with last-date / first-of-month fallback. -/
def buildTransactions (cfg : CatConfig) (category : String) (year month : Nat)
    (dates : List DateTimeV) : List ℤ → Nat → Rng → List Txn × Rng
  | [], _, g => ([], g)
  | amt :: rest, i, g =>
    let mp := g.next
    let merchant := cfg.merchants.getD (mp.1 % cfg.merchants.length) ""
    let pm := select_payment_method cfg.payment_weights mp.2
    let r := randFloat pm.2
    let is_online := r.1 < cfg.online_probability
    let date_obj := dates.getD i (dates.getLastD ⟨year, month, 1, 12, 0⟩)
    let t : Txn :=
      { date := date_obj, amount := amt, merchant := merchant,
        payment_method := pm.1, is_online := is_online,
        category := category.replace "_expense" "" }
    let ts := buildTransactions cfg category year month dates rest (i + 1) r.2
    (t :: ts.1, ts.2)

/-- `generate_transactions_for_category` (source lines 310-362). -/
def generate_transactions_for_category (user_id : String) (month year : Nat)
    (category : String) (total_amount : ℚ) (user_archetype : String) (g : Rng) :
    List Txn × Rng :=
  if total_amount ≤ 0 then ([], g)
  else
    match TRANSACTION_MODEL.lookup category with
    | none => ([], g)
    | some cfg =>
      let min_amt := cfg.min_transaction_amount
      let threshold := cfg.allow_below_min_threshold
      let nt := pickNumTrans total_amount threshold cfg.trans_range.1
        cfg.trans_range.2 min_amt user_archetype g
      let num_trans := max 1 nt.1
      let am := generate_smart_transaction_amounts total_amount num_trans
        cfg.dirichlet_alpha min_amt threshold nt.2
      let ds := generate_dates_with_bias year month am.1.length cfg.date_bias cfg am.2
      buildTransactions cfg category year month ds.1 am.1 0 ds.2

/-- Decimal digit character (`'0'`-`'9'`). -/
def digitChar10 (d : Nat) : Char := Char.ofNat (48 + d)

/-- Python `f"{n:08d}"`: decimal digits of `n`, zero-padded on the left to
eight characters. -/
def pad8 (n : Nat) : String :=
  let ds := (Nat.digits 10 n).map digitChar10
  String.mk (List.replicate (8 - ds.length) '0' ++ ds.reverse)

/-- The transaction identifier `f"TXN-{transaction_counter:08d}"`
(source line 433). -/
def txnId (n : Nat) : String := "TXN-" ++ pad8 n

/-- Inverse digit decoding, used to prove identifiers injective. -/
def undigit (c : Char) : Nat := c.toNat - 48

/-- Decode a zero-padded decimal character string back to the number. -/
def decodeChars (cs : List Char) : Nat := Nat.ofDigits 10 ((cs.map undigit).reverse)

/-- One input row of `monthly_expenses_12m.csv` as the driver reads it
(source lines 388-417): `month_start_date` carries the result of
`datetime.strptime(..., "%Y-%m-%d")` — `none` when parsing raised — and
`expenses` is `float(row.get(cat, 0))` with `NaN` already replaced by `0`. -/
structure InputRow where
  user_id : String
  month_index : ℤ
  month_start_date : Option (Nat × Nat)
  user_archetype : String
  expenses : String → ℚ

/-- The fallback table `month_order` (source lines 397-398):
month_index 1 ↦ May 2024, …, 12 ↦ Apr 2025. -/
def month_order : List (Nat × Nat) :=
  [(2024, 5), (2024, 6), (2024, 7), (2024, 8), (2024, 9), (2024, 10),
   (2024, 11), (2024, 12), (2025, 1), (2025, 2), (2025, 3), (2025, 4)]

/-- Month resolution for one row (source lines 390-406): the parsed
`month_start_date` if available, otherwise the fixed lookup for a 1-12
`month_index`, otherwise the `ValueError` that aborts the run. -/
def resolveMonth (row : InputRow) : Except String (Nat × Nat) :=
  match row.month_start_date with
  | some ym => .ok ym
  | none =>
    if 1 ≤ row.month_index ∧ row.month_index ≤ 12 then
      .ok (month_order.getD (row.month_index - 1).toNat (0, 0))
    else .error "month_index out of range and month_start_date parse failed"

/-- One output CSV row (source lines 432-443); the `date` field is serialized
with the fixed, injective format `"%Y-%m-%d %H:%M:%S"`, so the datetime value
stands for its rendering. -/
structure OutRow where
  transaction_id : String
  user_id : String
  date : DateTimeV
  month_index : ℤ
  category : String
  merchant : String
  amount : ℤ
  payment_method : String
  is_online : Nat
  description : String
deriving DecidableEq, Repr

/-- The output-row dict built for one transaction (source lines 432-443). -/
def mkOutRow (counter : Nat) (user_id : String) (month_index : ℤ) (t : Txn) :
    OutRow :=
  { transaction_id := txnId counter, user_id := user_id, date := t.date,
    month_index := month_index, category := t.category, merchant := t.merchant,
    amount := t.amount, payment_method := t.payment_method,
    is_online := if t.is_online then 1 else 0,
    description := t.merchant ++ " - " ++ t.category }

/-- The `for t in trans_list` emission loop (source lines 431-446):
one output row and one counter increment per transaction. -/
def emitRows (counter : Nat) (user_id : String) (month_index : ℤ) :
    List Txn → List OutRow
  | [] => []
  | t :: ts => mkOutRow counter user_id month_index t ::
      emitRows (counter + 1) user_id month_index ts

/-- Processing of one (row, category) unit inside the driver
(source lines 416-446): skip non-positive totals, otherwise synthesize the
category's transactions and emit them with consecutive identifiers. -/
def processUnit (user_id user_archetype : String) (month year : Nat)
    (month_index : ℤ) (category : String) (total_amount : ℚ) (counter : Nat)
    (g : Rng) : Nat × List OutRow × Rng :=
  if total_amount ≤ 0 then (counter, [], g)
  else
    let ts := generate_transactions_for_category user_id month year category
      total_amount user_archetype g
    (counter + ts.1.length, emitRows counter user_id month_index ts.1, ts.2)

/-- The `for cat in EXPENSE_CATEGORIES` loop of the driver (source
lines 416-446). -/
def processCats (user_id user_archetype : String) (month year : Nat)
    (month_index : ℤ) (expenses : String → ℚ) :
    List String → Nat → Rng → Nat × List OutRow × Rng
  | [], counter, g => (counter, [], g)
  | c :: cs, counter, g =>
    let u := processUnit user_id user_archetype month year month_index c
      (expenses c) counter g
    let rest := processCats user_id user_archetype month year month_index
      expenses cs u.1 u.2.2
    (rest.1, u.2.1 ++ rest.2.1, rest.2.2)

/-- The row loop of `generate_all_transactions_stream`
(source lines 388-448): resolve the month (raising aborts the whole run),
then process every expense category of the row. -/
def processRows : List InputRow → Nat → Rng →
    Except String (Nat × List OutRow × Rng)
  | [], counter, g => .ok (counter, [], g)
  | row :: rows, counter, g =>
    match resolveMonth row with
    | .error e => .error e
    | .ok ym =>
      let r := processCats row.user_id row.user_archetype ym.2 ym.1
        row.month_index row.expenses EXPENSE_CATEGORIES counter g
      match processRows rows r.1 r.2.2 with
      | .error e => .error e
      | .ok rest => .ok (rest.1, r.2.1 ++ rest.2.1, rest.2.2)

/-- `generate_all_transactions_stream` (source lines 367-475): the emitted
output rows in file order (`transaction_counter` starts at 1, source
line 383); buffering and flushing do not change the written sequence. -/
def generate_all_transactions_stream (rows : List InputRow) (g : Rng) :
    Except String (List OutRow) :=
  (processRows rows 1 g).map (fun r => r.2.1)

/-- The process-wide generator seeded once at import (source lines 25-32,
`SEED = 42`): a concrete deterministic stream derived from the seed, so the
whole sequence of draws is a function of the seed alone. -/
def rngFromSeed (seed : Nat) : Rng :=
  ⟨fun n => (seed + n + 1) * 2654435761 % 4294967296⟩

/-- A full run of the generator script for a given seed and input dataset. -/
def runGenerator (seed : Nat) (rows : List InputRow) :
    Except String (List OutRow) :=
  generate_all_transactions_stream rows (rngFromSeed seed)

/-- The all-zeros draw stream, used to instantiate theorems at concrete runs. -/
def zeroStream : Rng := ⟨fun _ => 0⟩

/-- A draw stream whose first Dirichlet vector is `(1, 0, 0)`, realizing a
degenerate proportion draw. -/
def bugStream : Rng := ⟨fun n => if n = 0 then 1 else 0⟩

/-- An input row whose `month_start_date` failed to parse and whose
`month_index` is out of the 1-12 range. -/
def badIndexRow : InputRow :=
  { user_id := "u1", month_index := 13, month_start_date := none,
    user_archetype := "", expenses := fun _ => 0 }

/-- A draw stream that makes the food-category unit pick 3 transactions and
then draw the degenerate Dirichlet vector `(1, 0, 0)`. -/
def catBugStream : Rng := ⟨fun n => if n = 0 then 2 else if n = 1 then 1 else 0⟩

/-- The date-containment property of C5: the timestamp lies inside the
(year, month) of its source row. -/
def inMonth (year month : Nat) (dt : DateTimeV) : Prop :=
  dt.year = year ∧ dt.month = month ∧ 1 ≤ dt.day ∧
    dt.day ≤ get_days_in_month year month

/-- An input row whose `month_start_date` failed to parse and whose
`month_index` is 3, exercising the fallback lookup. -/
def fallbackRow : InputRow :=
  { user_id := "u1", month_index := 3, month_start_date := none,
    user_archetype := "", expenses := fun _ => 0 }

/-! ### Helper lemmas about the list primitives -/

theorem addAt_length (xs : List ℤ) (i : Nat) (d : ℤ) :
    (addAt xs i d).length = xs.length := by
  simp [addAt]

theorem addAt_zero (xs : List ℤ) (i : Nat) : addAt xs i 0 = xs := by
  induction xs generalizing i with
  | nil => rfl
  | cons x t ih =>
    cases i with
    | zero => simp [addAt]
    | succ j =>
      have h := ih j
      simp only [addAt] at h ⊢
      simpa using h

theorem sum_addAt (xs : List ℤ) (i : Nat) (d : ℤ) (h : i < xs.length) :
    (addAt xs i d).sum = xs.sum + d := by
  induction xs generalizing i with
  | nil => simp at h
  | cons x t ih =>
    cases i with
    | zero => simp [addAt]; ring
    | succ j =>
      have hj : j < t.length := by simpa using h
      have hih := ih j hj
      simp only [addAt] at hih ⊢
      simp only [List.getD_cons_succ, List.set_cons_succ, List.sum_cons]
      rw [hih]; ring

theorem foldl_max_mem (t : List ℤ) (x : ℤ) :
    t.foldl max x = x ∨ t.foldl max x ∈ t := by
  induction t generalizing x with
  | nil => left; rfl
  | cons y t ih =>
    rcases ih (max x y) with h | h
    · rcases max_choice x y with hm | hm
      · left
        rw [List.foldl_cons, h, hm]
      · right
        rw [List.foldl_cons, h, hm]
        exact List.mem_cons_self y t
    · right
      rw [List.foldl_cons]
      exact List.mem_cons_of_mem y h

theorem listMax_mem (xs : List ℤ) (h : xs ≠ []) : listMax xs ∈ xs := by
  cases xs with
  | nil => exact absurd rfl h
  | cons x t =>
    rcases foldl_max_mem t x with h' | h'
    · simp [listMax, h']
    · simp [listMax, h']

theorem maxIdx_lt (xs : List ℤ) (h : xs ≠ []) : maxIdx xs < xs.length :=
  List.indexOf_lt_length.2 (listMax_mem xs h)

theorem zeroMergePass_eq (xs : List ℤ) : zeroMergePass xs = xs := by
  have hfold : ∀ (l acc : List ℤ),
      l.foldl (fun cur a => if a == 0 then addAt cur (maxIdx cur) 0 else cur) acc
        = acc := by
    intro l
    induction l with
    | nil => intro acc; rfl
    | cons a t ih =>
      intro acc
      rw [List.foldl_cons]
      by_cases ha : a = (0 : ℤ)
      · rw [if_pos (by simpa using ha), addAt_zero]
        exact ih acc
      · rw [if_neg (by simpa using ha)]
        exact ih acc
  unfold zeroMergePass
  split
  · exact hfold xs xs
  · rfl

theorem filter_len_zero_of_all_ge (xs : List ℤ) (m : ℤ) (h : ∀ x ∈ xs, m ≤ x) :
    (xs.filter (fun a => a < m)).length = 0 := by
  rw [List.length_eq_zero, List.filter_eq_nil_iff]
  intro a ha
  simpa using h a ha

theorem countP_addAt_le_one (xs : List ℤ) (i : Nat) (d m : ℤ)
    (h : ∀ x ∈ xs, m ≤ x) :
    ((addAt xs i d).filter (fun a => a < m)).length ≤ 1 := by
  induction xs generalizing i with
  | nil => simp [addAt]
  | cons x t ih =>
    have ht : (t.filter (fun a => a < m)).length = 0 :=
      filter_len_zero_of_all_ge t m (fun a ha => h a (List.mem_cons_of_mem x ha))
    cases i with
    | zero =>
      simp only [addAt, List.getD_cons_zero, List.set_cons_zero, List.filter_cons]
      split
      · rw [List.length_cons, ht]
      · rw [ht]
        omega
    | succ j =>
      have hx : m ≤ x := h x (List.mem_cons_self x t)
      have hrec := ih j (fun a ha => h a (List.mem_cons_of_mem x ha))
      simp only [addAt, List.getD_cons_succ, List.set_cons_succ,
        List.filter_cons] at hrec ⊢
      split
      · next hc =>
        simp only [decide_eq_true_eq] at hc
        omega
      · exact hrec

/-! ### Properties of the random primitives -/

theorem dirichlet_length (n : Nat) (g : Rng) :
    (dirichletSample n g).1.length = n := by
  unfold dirichletSample
  dsimp only
  split <;> simp

theorem dirichlet_nonneg (n : Nat) (g : Rng) :
    ∀ p ∈ (dirichletSample n g).1, 0 ≤ p := by
  unfold dirichletSample
  dsimp only
  split
  · intro p hp
    rw [List.eq_of_mem_replicate hp]
    exact div_nonneg zero_le_one (Nat.cast_nonneg n)
  · intro p hp
    simp only [List.mem_map] at hp
    obtain ⟨x, _, hx⟩ := hp
    rw [← hx]
    exact div_nonneg (Nat.cast_nonneg x) (Nat.cast_nonneg _)

theorem randint_le (a b : Nat) (g : Rng) (h : a ≤ b) :
    a ≤ (randint a b g).1 ∧ (randint a b g).1 ≤ b := by
  unfold randint
  dsimp only
  refine ⟨Nat.le_add_right a _, ?_⟩
  have : (g.next.1) % (b + 1 - a) < b + 1 - a := Nat.mod_lt _ (by omega)
  omega

theorem round_nonneg_of_nonneg (x : ℚ) (h : 0 ≤ x) : 0 ≤ round x := by
  rw [round_eq]
  exact Int.floor_nonneg.2 (by linarith)

theorem round_zero_of_small (x : ℚ) (h0 : 0 < x) (h : x < 1 / 2) :
    round x = 0 := by
  rw [round_eq]
  rw [Int.floor_eq_zero_iff]
  constructor <;> simp <;> linarith

/-! ### The exact-sum property of the amount splitter -/

theorem flexibleSplit_sum (total : ℤ) (n : Nat) (g : Rng) (hn : 1 ≤ n) :
    (flexibleSplit total n g).1.sum = total := by
  unfold flexibleSplit
  simp only [zeroMergePass_eq]
  set amts := ((dirichletSample n g).1).map (fun p => round (p * (total : ℚ))) with hamts
  have hlen : amts.length = n := by
    rw [hamts, List.length_map, dirichlet_length]
  have hne : amts ≠ [] := by
    intro hcon
    rw [hcon] at hlen
    simp at hlen
    omega
  by_cases hd : total - amts.sum = 0
  · simp only [hd, ne_eq, not_true_eq_false, if_neg, ite_false]
    omega
  · rw [if_pos hd, sum_addAt _ _ _ (maxIdx_lt _ hne)]
    ring

theorem strictCore_len (total : ℤ) (n : Nat) (m : ℤ) (g : Rng) :
    (strictCore total n m g).1.length = n := by
  unfold strictCore
  dsimp only
  split
  · split <;> simp [addAt_length]
  · split <;> simp [addAt_length, dirichlet_length]

theorem strictCore_sum (total : ℤ) (n : Nat) (m : ℤ) (g : Rng) (hn : 1 ≤ n) :
    (strictCore total n m g).1.sum = total := by
  unfold strictCore
  dsimp only
  split
  · set base := List.replicate n m with hbase
    have hne : base ≠ [] := by
      rw [hbase]
      simp only [ne_eq, List.replicate_eq_nil_iff]
      omega
    have hlt : base.length - 1 < base.length := by
      have : base.length = n := by simp [hbase]
      omega
    by_cases hd : total - base.sum = 0
    · simp only [hd, ne_eq, not_true_eq_false, ite_false]
      omega
    · rw [if_pos hd, sum_addAt _ _ _ hlt]
      ring
  · set amounts := (((dirichletSample n g).1).map
      (fun p => round (p * ((total - (n : ℤ) * m : ℤ) : ℚ)))).map
      (fun e => m + e) with hamounts
    have hlen : amounts.length = n := by
      rw [hamounts]
      simp [dirichlet_length]
    have hne : amounts ≠ [] := by
      intro hcon
      rw [hcon] at hlen
      simp at hlen
      omega
    by_cases hd : total - amounts.sum = 0
    · simp only [hd, ne_eq, not_true_eq_false, ite_false]
      omega
    · rw [if_pos hd, sum_addAt _ _ _ (maxIdx_lt _ hne)]
      ring

theorem strictCore_floor (total : ℤ) (n : Nat) (m : ℤ) (g : Rng) :
    ((strictCore total n m g).1.filter (fun a => a < m)).length ≤ 1 := by
  unfold strictCore
  dsimp only
  split
  · have hbase : ∀ x ∈ List.replicate n m, m ≤ x := by
      intro x hx
      rw [List.eq_of_mem_replicate hx]
    split
    · exact countP_addAt_le_one _ _ _ _ hbase
    · rw [filter_len_zero_of_all_ge _ _ hbase]
      omega
  · next hrem =>
    have hrem' : (0 : ℤ) < total - (n : ℤ) * m := by omega
    have hall : ∀ x ∈ (((dirichletSample n g).1).map
        (fun p => round (p * ((total - (n : ℤ) * m : ℤ) : ℚ)))).map
        (fun e => m + e), m ≤ x := by
      intro x hx
      simp only [List.mem_map] at hx
      obtain ⟨e, ⟨p, hp, hpe⟩, hex⟩ := hx
      have hp0 : 0 ≤ p := dirichlet_nonneg n g p hp
      have he0 : (0 : ℤ) ≤ e := by
        rw [← hpe]
        apply round_nonneg_of_nonneg
        apply mul_nonneg hp0
        exact_mod_cast le_of_lt hrem'
      omega
    split
    · exact countP_addAt_le_one _ _ _ _ hall
    · rw [filter_len_zero_of_all_ge _ _ hall]
      omega

theorem strictSplit_floor (total : ℤ) (n : Nat) (m : ℤ) (g : Rng) :
    ((strictSplit total n m g).1.filter (fun a => a < m)).length ≤ 1 := by
  unfold strictSplit
  dsimp only
  split
  · split
    · calc ([total].filter (fun a => a < m)).length ≤ [total].length :=
            List.length_filter_le _ _
        _ = 1 := rfl
    · exact strictCore_floor _ _ _ _
  · exact strictCore_floor _ _ _ _

theorem strictSplit_sum (total : ℤ) (n : Nat) (m : ℤ) (g : Rng)
    (hT : 1 ≤ total) (hn : 1 ≤ n) :
    (strictSplit total n m g).1.sum = total := by
  unfold strictSplit
  dsimp only
  split
  · have h1 : (1 : ℤ) ≤ max 1 (Int.fdiv total m) := le_max_left _ _
    split
    · omega
    · apply strictCore_sum
      omega
  · exact strictCore_sum _ _ _ _ hn

theorem strictSplit_len_infeasible (total : ℤ) (n : Nat) (m : ℤ) (g : Rng)
    (h : total < (n : ℤ) * m) :
    (strictSplit total n m g).1.length = (max 1 (Int.fdiv total m)).toNat := by
  unfold strictSplit
  dsimp only
  rw [if_pos h]
  have h1 : (1 : ℤ) ≤ max 1 (Int.fdiv total m) := le_max_left _ _
  split
  · omega
  · exact strictCore_len _ _ _ _

theorem split_sum (ta : ℚ) (n : Nat) (alpha : ℚ) (m : ℤ) (thr : ℚ) (g : Rng)
    (h0 : 0 < ta) :
    (generate_smart_transaction_amounts ta n alpha m thr g).1.sum = round ta := by
  unfold generate_smart_transaction_amounts
  dsimp only
  have hr : 0 ≤ round ta := round_nonneg_of_nonneg ta (le_of_lt h0)
  split
  · next h => simp; omega
  · split
    · simp
    · next h1 h2 =>
      split
      · exact flexibleSplit_sum _ _ _ (by omega)
      · exact strictSplit_sum _ _ _ _ (by omega) (by omega)

theorem split_floor (ta : ℚ) (n : Nat) (alpha : ℚ) (m : ℤ) (thr : ℚ) (g : Rng)
    (hthr : thr ≤ ((round ta : ℤ) : ℚ)) :
    (((generate_smart_transaction_amounts ta n alpha m thr g).1).filter
      (fun a => a < m)).length ≤ 1 := by
  unfold generate_smart_transaction_amounts
  dsimp only
  split
  · simp
  · split
    · calc ([(round ta : ℤ)].filter (fun a => a < m)).length
          ≤ [(round ta : ℤ)].length := List.length_filter_le _ _
        _ = 1 := rfl
    · split
      · next hflex => exact absurd hflex (not_lt.2 hthr)
      · exact strictSplit_floor _ _ _ _

/-! ### Category-level lemmas -/

theorem lookup_of_mem_keys {β : Type} (l : List (String × β)) (a : String)
    (h : a ∈ l.map Prod.fst) : ∃ b, l.lookup a = some b := by
  induction l with
  | nil => simp at h
  | cons p t ih =>
    simp only [List.map_cons, List.mem_cons] at h
    by_cases hpa : a = p.1
    · exact ⟨p.2, by simp [List.lookup, beq_iff_eq, hpa]⟩
    · obtain ⟨b, hb⟩ := ih (h.resolve_left hpa)
      have hbe : (a == p.1) = false := beq_eq_false_iff_ne.2 hpa
      exact ⟨b, by simp [List.lookup, hbe, hb]⟩

theorem buildTransactions_amounts (cfg : CatConfig) (c : String) (y m : Nat)
    (ds : List DateTimeV) (amts : List ℤ) (i : Nat) (g : Rng) :
    ((buildTransactions cfg c y m ds amts i g).1.map Txn.amount) = amts := by
  induction amts generalizing i g with
  | nil => rfl
  | cons a t ih =>
    unfold buildTransactions
    dsimp only
    rw [List.map_cons, ih]

theorem split_empty (ta : ℚ) (n : Nat) (alpha : ℚ) (m : ℤ) (thr : ℚ) (g : Rng)
    (h : round ta = 0) :
    generate_smart_transaction_amounts ta n alpha m thr g = ([], g) := by
  unfold generate_smart_transaction_amounts
  dsimp only
  rw [if_pos (by omega : round ta ≤ 0)]

theorem gen_cat_empty (user : String) (month year : Nat) (cat : String)
    (ta : ℚ) (arch : String) (g : Rng) (h0 : 0 < ta) (h : round ta = 0) :
    (generate_transactions_for_category user month year cat ta arch g).1 = [] := by
  unfold generate_transactions_for_category
  rw [if_neg (not_le.2 h0)]
  cases hc : TRANSACTION_MODEL.lookup cat with
  | none => rfl
  | some cfg =>
    dsimp only
    rw [split_empty _ _ _ _ _ _ h]
    rfl

theorem fdiv_zero_of_lt (T m : ℤ) (h1 : 0 ≤ T) (h2 : T < m) :
    Int.fdiv T m = 0 := by
  rw [Int.fdiv_eq_tdiv h1 (by omega), Int.tdiv_eq_zero_of_lt h1 h2]

/-! ### Claim theorems: the amount splitter -/

/-- C1: for every (user, month, category) unit with `total_amount > 0`, the sum
of the amounts of the transactions emitted for that unit equals
`round(total_amount)` exactly — in flexible mode as well as strict mode,
including after the rounding-drift correction and after any feasibility
reduction of the transaction count. -/
theorem exact_sum_invariant (user : String) (month year : Nat) (cat : String)
    (total_amount : ℚ) (archetype : String) (g : Rng) (h0 : 0 < total_amount)
    (hcat : cat ∈ EXPENSE_CATEGORIES) :
    ((generate_transactions_for_category user month year cat total_amount
      archetype g).1.map Txn.amount).sum = round total_amount := by
  obtain ⟨cfg, hcfg⟩ := lookup_of_mem_keys TRANSACTION_MODEL cat hcat
  unfold generate_transactions_for_category
  rw [if_neg (not_le.2 h0), hcfg]
  dsimp only
  rw [buildTransactions_amounts]
  exact split_sum _ _ _ _ _ _ h0

/-- Witness for C1 at a concrete strict-mode unit (food, total 200). -/
theorem exact_sum_invariant_witness :
    (0 : ℚ) < 200 ∧ "food_expense" ∈ EXPENSE_CATEGORIES ∧
    ((generate_transactions_for_category "u1" 5 2024 "food_expense" 200 ""
      zeroStream).1.map Txn.amount).sum = round (200 : ℚ) :=
  ⟨by norm_num, by decide,
    exact_sum_invariant "u1" 5 2024 "food_expense" 200 "" zeroStream
      (by norm_num) (by decide)⟩

/-- C2 counterexample: in strict mode (`total_amount = 150 = flex_threshold`)
with the infeasible request `count = 2`, `min_amount = 200`
(`count * min_amount = 400 > 150`), the splitter returns `[150]`, whose only
element is below the `min_amount` floor — refuting the claim that every
returned amount is `>= min_amount` on infeasible combinations. -/
theorem strict_floor_counterexample :
    (generate_smart_transaction_amounts 150 2 1 200 150 zeroStream).1 = [150] ∧
    ¬ ((200 : ℤ) ≤ 150) := by
  constructor
  · norm_num [generate_smart_transaction_amounts, strictSplit, strictCore,
      round_eq, addAt, Int.fdiv]
  · norm_num

/-- C2 (amended): in strict mode, at most one element of the returned sequence
falls below `min_amount` — the element receiving the rounding-drift correction
(or the single element kept after an infeasible-count reduction with
`total < min_amount`); every other element is at least `min_amount`. -/
theorem strict_floor_amended (total_amount : ℚ) (count : Nat) (alpha : ℚ)
    (min_amount : ℤ) (flex_threshold : ℚ) (g : Rng)
    (hstrict : flex_threshold ≤ ((round total_amount : ℤ) : ℚ)) :
    (((generate_smart_transaction_amounts total_amount count alpha min_amount
      flex_threshold g).1).filter (fun a => a < min_amount)).length ≤ 1 :=
  split_floor total_amount count alpha min_amount flex_threshold g hstrict

/-- Witness for the amended C2 at a concrete strict-mode call. -/
theorem strict_floor_amended_witness :
    (150 : ℚ) ≤ ((round (603 : ℚ) : ℤ) : ℚ) ∧
    (((generate_smart_transaction_amounts 603 6 1 100 150 zeroStream).1).filter
      (fun a => a < 100)).length ≤ 1 :=
  ⟨by norm_num [round_eq],
    strict_floor_amended 603 6 1 100 150 zeroStream (by norm_num [round_eq])⟩

/-- C3: in strict mode, whenever the requested count is infeasible
(`count * min_amount > total`), the splitter reduces the effective count to
`max(1, floor(total / min_amount))` without error, and the returned sequence
has exactly that many elements. -/
theorem count_feasibility_reconciliation (total_amount : ℚ) (count : Nat)
    (alpha : ℚ) (min_amount : ℤ) (flex_threshold : ℚ) (g : Rng)
    (hpos : 1 ≤ round total_amount)
    (hstrict : flex_threshold ≤ ((round total_amount : ℤ) : ℚ))
    (hinf : round total_amount < (count : ℤ) * min_amount) :
    ((generate_smart_transaction_amounts total_amount count alpha min_amount
      flex_threshold g).1).length
      = (max 1 (Int.fdiv (round total_amount) min_amount)).toNat := by
  unfold generate_smart_transaction_amounts
  dsimp only
  rw [if_neg (by omega)]
  by_cases hc : count ≤ 1
  · rw [if_pos hc]
    have hcount1 : (count : ℤ) = 1 := by
      have : count = 1 := by
        rcases Nat.lt_or_ge count 1 with h | h
        · exfalso
          have hc0 : count = 0 := by omega
          rw [hc0] at hinf
          simp at hinf
          omega
        · omega
      exact_mod_cast this
    rw [hcount1, one_mul] at hinf
    rw [fdiv_zero_of_lt _ _ (by omega) hinf]
    rfl
  · rw [if_neg hc, if_neg (not_lt.2 hstrict)]
    exact strictSplit_len_infeasible _ _ _ _ hinf

/-- Witness for C3: total 500, min 200, requested count 3 → effective count 2. -/
theorem count_feasibility_reconciliation_witness :
    1 ≤ round (500 : ℚ) ∧ (150 : ℚ) ≤ ((round (500 : ℚ) : ℤ) : ℚ) ∧
    round (500 : ℚ) < (3 : ℤ) * 200 ∧
    ((generate_smart_transaction_amounts 500 3 1 200 150 zeroStream).1).length
      = (max 1 (Int.fdiv (round (500 : ℚ)) 200)).toNat :=
  ⟨by norm_num [round_eq], by norm_num [round_eq], by norm_num [round_eq],
    count_feasibility_reconciliation 500 3 1 200 150 zeroStream
      (by norm_num [round_eq]) (by norm_num [round_eq]) (by norm_num [round_eq])⟩

/-- C4 (code bug): a (user, month, category) unit with `total_amount = 10 > 0`
in flexible mode whose Dirichlet draw is the degenerate vector `(1, 0, 0)`
emits the amounts `[10, 0, 0]`: the source's zero-removal loop is a literal
no-op (`+= 0`), so zero amounts survive into the emitted transactions,
contradicting the positive-integer invariant the spec states. -/
theorem positive_amount_code_bug :
    ((generate_transactions_for_category "u1" 5 2024 "food_expense" 10 ""
      catBugStream).1.map Txn.amount) = [10, 0, 0] := by
  obtain ⟨cfg, hcfg⟩ :=
    lookup_of_mem_keys TRANSACTION_MODEL "food_expense" (by decide)
  unfold generate_transactions_for_category
  rw [if_neg (by norm_num : ¬ (10 : ℚ) ≤ 0), hcfg]
  dsimp only
  rw [buildTransactions_amounts]
  have hcfg' : cfg = foodConfig := by
    have hl : TRANSACTION_MODEL.lookup "food_expense" = some foodConfig := rfl
    rw [hl] at hcfg
    exact (Option.some_injective _ hcfg).symm
  subst hcfg'
  norm_num [foodConfig, pickNumTrans, flexibleCount, randint, Rng.next,
    catBugStream, generate_smart_transaction_amounts, flexibleSplit,
    dirichletSample, round_eq, addAt, zeroMergePass, maxIdx, listMax,
    List.range_succ, Rng.drop]

/-- C8: the flexible/strict boundary is closed on the strict side — flexible
mode is selected only by the strict inequality `total < flex_threshold`, so at
`total_amount = flex_threshold` (and anywhere at or above the threshold) the
amount splitter takes the strict branch and the synthesizer's
transaction-count selection takes the strict draw. -/
theorem threshold_boundary_strict (total_amount : ℚ) (count : Nat) (alpha : ℚ)
    (min_amount : ℤ) (flex_threshold : ℚ) (g gc : Rng)
    (min_trans max_trans : Nat) (archetype : String)
    (hpos : 1 ≤ round total_amount) (hcount : 2 ≤ count)
    (hthr : flex_threshold ≤ ((round total_amount : ℤ) : ℚ))
    (hthr' : flex_threshold ≤ total_amount) :
    generate_smart_transaction_amounts total_amount count alpha min_amount
        flex_threshold g
      = strictSplit (round total_amount) count min_amount g ∧
    pickNumTrans total_amount flex_threshold min_trans max_trans min_amount
        archetype gc
      = strictCount total_amount min_trans max_trans min_amount archetype gc := by
  constructor
  · unfold generate_smart_transaction_amounts
    dsimp only
    rw [if_neg (by omega), if_neg (by omega), if_neg (not_lt.2 hthr)]
  · unfold pickNumTrans
    rw [if_neg (not_lt.2 hthr')]

/-- Witness for C8 at the spec's boundary scenario: subscriptions with
`total_amount = 150 = flex_threshold`. -/
theorem threshold_boundary_strict_witness :
    1 ≤ round (150 : ℚ) ∧ 2 ≤ 2 ∧ (150 : ℚ) ≤ ((round (150 : ℚ) : ℤ) : ℚ) ∧
    (150 : ℚ) ≤ (150 : ℚ) ∧
    (generate_smart_transaction_amounts 150 2 5 100 150 zeroStream
       = strictSplit (round (150 : ℚ)) 2 100 zeroStream ∧
     pickNumTrans 150 150 1 3 100 "" zeroStream
       = strictCount 150 1 3 100 "" zeroStream) :=
  ⟨by norm_num [round_eq], by norm_num, by norm_num [round_eq], by norm_num,
    threshold_boundary_strict 150 2 5 100 150 zeroStream zeroStream 1 3 ""
      (by norm_num [round_eq]) (by norm_num) (by norm_num [round_eq])
      (by norm_num)⟩

/-- C10: for every recognized category and every `total_amount` with
`0 < total_amount < 0.5`, the synthesizer emits zero transactions for the unit
and consumes no transaction identifiers: the splitter rounds the total first
and returns the empty sequence when the rounded value is `≤ 0`, so the
emit-nothing condition is `round(total_amount) ≤ 0`, not `total_amount ≤ 0`. -/
theorem near_zero_total_emits_nothing (user arch : String) (month year : Nat)
    (midx : ℤ) (cat : String) (total_amount : ℚ) (counter : Nat) (g : Rng)
    (h0 : 0 < total_amount) (hhalf : total_amount < 1 / 2)
    (hcat : cat ∈ EXPENSE_CATEGORIES) :
    (processUnit user arch month year midx cat total_amount counter g).1
        = counter ∧
    (processUnit user arch month year midx cat total_amount counter g).2.1
        = [] := by
  have hr : round total_amount = 0 := round_zero_of_small total_amount h0 hhalf
  have he := gen_cat_empty user month year cat total_amount arch g h0 hr
  unfold processUnit
  rw [if_neg (not_le.2 h0)]
  dsimp only
  rw [he]
  exact ⟨rfl, rfl⟩

/-- Witness for C10 at `total_amount = 1/4` in the food category. -/
theorem near_zero_total_emits_nothing_witness :
    (0 : ℚ) < 1 / 4 ∧ (1 / 4 : ℚ) < 1 / 2 ∧
    "food_expense" ∈ EXPENSE_CATEGORIES ∧
    (processUnit "u1" "" 5 2024 1 "food_expense" (1 / 4) 7 zeroStream).1 = 7 ∧
    (processUnit "u1" "" 5 2024 1 "food_expense" (1 / 4) 7 zeroStream).2.1 = [] :=
  ⟨by norm_num, by norm_num, by decide,
    (near_zero_total_emits_nothing "u1" "" 5 2024 1 "food_expense" (1 / 4) 7
      zeroStream (by norm_num) (by norm_num) (by decide)).1,
    (near_zero_total_emits_nothing "u1" "" 5 2024 1 "food_expense" (1 / 4) 7
      zeroStream (by norm_num) (by norm_num) (by decide)).2⟩

/-! ### Date containment -/

theorem dim_ge_28 (year month : Nat) : 28 ≤ get_days_in_month year month := by
  unfold get_days_in_month
  split
  · split <;> omega
  · split <;> omega

theorem getD_mem_of_lt {α : Type} (l : List α) (i : Nat) (d : α)
    (h : i < l.length) : l.getD i d ∈ l := by
  rw [List.getD_eq_getElem l d h]
  exact List.getElem_mem h

theorem getLastD_mem {α : Type} (l : List α) (d : α) (h : l ≠ []) :
    l.getLastD d ∈ l := by
  rw [List.getLastD_eq_getLast?, List.getLast?_eq_getLast l h]
  simp

theorem sampleK_mem (l : List Nat) (k : Nat) (g : Rng) :
    ∀ y ∈ (sampleK l k g).1, y ∈ l := by
  induction k generalizing l g with
  | zero => intro y hy; simp [sampleK] at hy
  | succ k ih =>
    intro y hy
    cases l with
    | nil => simp [sampleK] at hy
    | cons a l' =>
      unfold sampleK at hy
      dsimp only at hy
      rcases List.mem_cons.1 hy with h | h
      · rw [h]
        apply getD_mem_of_lt
        exact Nat.mod_lt _ (by simp)
      · exact List.eraseIdx_subset _ _ (ih _ _ y h)

theorem fixedChoose_mem (available : List Nat) (need fuel : Nat) (g : Rng)
    (acc : List Nat) :
    ∀ y ∈ (fixedChoose available need fuel g acc).1, y ∈ acc ∨ y ∈ available := by
  induction fuel generalizing g acc with
  | zero => intro y hy; exact Or.inl hy
  | succ fuel ih =>
    intro y hy
    unfold fixedChoose at hy
    dsimp only at hy
    split at hy
    · split at hy
      · rcases List.mem_append.1 hy with h | h
        · exact Or.inl h
        · exact Or.inr (sampleK_mem _ _ _ y h)
      · rcases ih _ _ y hy with h | h
        · rcases List.mem_append.1 h with h' | h'
          · exact Or.inl h'
          · exact Or.inr (sampleK_mem _ _ _ y h')
        · exact Or.inr h
    · exact Or.inl hy

theorem datesFromDays_mem (year month hlo hhi : Nat) (ds : List Nat) (g : Rng) :
    ∀ dt ∈ (datesFromDays year month hlo hhi ds g).1,
      dt.year = year ∧ dt.month = month ∧ dt.day ∈ ds := by
  induction ds generalizing g with
  | nil => intro dt h; simp [datesFromDays] at h
  | cons d ds ih =>
    intro dt h
    unfold datesFromDays at h
    dsimp only at h
    rcases List.mem_cons.1 h with h' | h'
    · rw [h']
      exact ⟨rfl, rfl, List.mem_cons_self _ _⟩
    · obtain ⟨h1, h2, h3⟩ := ih _ dt h'
      exact ⟨h1, h2, List.mem_cons_of_mem _ h3⟩

theorem drawSimpleDates_mem (year month dlo dhi hlo hhi n : Nat) (g : Rng)
    (hd : dlo ≤ dhi) :
    ∀ dt ∈ (drawSimpleDates year month dlo dhi hlo hhi n g).1,
      dt.year = year ∧ dt.month = month ∧ dlo ≤ dt.day ∧ dt.day ≤ dhi := by
  induction n generalizing g with
  | zero => intro dt h; simp [drawSimpleDates] at h
  | succ n ih =>
    intro dt h
    unfold drawSimpleDates at h
    dsimp only at h
    rcases List.mem_cons.1 h with h' | h'
    · rw [h']
      obtain ⟨hle, hge⟩ := randint_le dlo dhi g hd
      exact ⟨rfl, rfl, hle, hge⟩
    · exact ih _ dt h'

theorem mem_ite_append {α : Type} (c : Prop) [Decidable c] (acc : List α)
    (x a : α) (h : a ∈ (if c then acc ++ [x] else acc)) : a ∈ acc ∨ a = x := by
  split at h
  · rcases List.mem_append.1 h with h1 | h1
    · exact Or.inl h1
    · exact Or.inr (List.mem_singleton.1 h1)
  · exact Or.inl h

theorem biasedTryLoop_mem (year month dim need hlo hhi : Nat)
    (wantWeekend : Bool) (p : ℚ) (fuel : Nat) (acc : List DateTimeV) (g : Rng)
    (hdim : 1 ≤ dim) :
    ∀ dt ∈ (biasedTryLoop year month dim need hlo hhi wantWeekend p
        fuel acc g).1,
      dt ∈ acc ∨ (dt.year = year ∧ dt.month = month ∧ 1 ≤ dt.day ∧
        dt.day ≤ dim) := by
  induction fuel generalizing acc g with
  | zero => intro dt h; exact Or.inl h
  | succ fuel ih =>
    intro dt h
    unfold biasedTryLoop at h
    dsimp only at h
    split at h
    · rcases ih _ _ dt h with h' | h'
      · rcases mem_ite_append _ _ _ _ h' with ha | ha
        · exact Or.inl ha
        · right
          rw [ha]
          obtain ⟨hle, hge⟩ := randint_le 1 dim g hdim
          exact ⟨rfl, rfl, hle, hge⟩
      · exact Or.inr h'
    · exact Or.inl h

theorem fillDates_mem (year month dim hlo hhi n : Nat) (acc : List DateTimeV)
    (g : Rng) (hdim : 1 ≤ dim) :
    ∀ dt ∈ (fillDates year month dim hlo hhi n acc g).1,
      dt ∈ acc ∨ (dt.year = year ∧ dt.month = month ∧ 1 ≤ dt.day ∧
        dt.day ≤ dim) := by
  induction n generalizing acc g with
  | zero => intro dt h; exact Or.inl h
  | succ n ih =>
    intro dt h
    unfold fillDates at h
    dsimp only at h
    rcases ih _ _ dt h with h' | h'
    · rcases List.mem_append.1 h' with h'' | h''
      · exact Or.inl h''
      · right
        rw [List.mem_singleton.1 h'']
        obtain ⟨hle, hge⟩ := randint_le 1 dim g hdim
        exact ⟨rfl, rfl, hle, hge⟩
    · exact Or.inr h'

theorem sortDates_mem (ds : List DateTimeV) (dt : DateTimeV)
    (h : dt ∈ sortDates ds) : dt ∈ ds :=
  (List.mergeSort_perm ds _).mem_iff.1 h

theorem dates_in_month (year month n : Nat) (bias : String) (cfg : CatConfig)
    (g : Rng) (hdays : ∀ d ∈ cfg.specific_days.getD [], 1 ≤ d) :
    ∀ dt ∈ (generate_dates_with_bias year month n bias cfg g).1,
      inMonth year month dt := by
  have hdim : 28 ≤ get_days_in_month year month := dim_ge_28 year month
  intro dt h
  unfold generate_dates_with_bias at h
  dsimp only at h
  split at h
  · simp at h
  · split at h
    · -- fixed with specific days
      obtain ⟨h1, h2, h3⟩ := datesFromDays_mem _ _ _ _ _ _ dt (sortDates_mem _ _ h)
      have h4 := List.mem_of_mem_take h3
      rcases fixedChoose_mem _ _ _ _ _ _ h4 with h5 | h5
      · simp at h5
      · have h6 := List.mem_filter.1 h5
        refine ⟨h1, h2, hdays _ h6.1, ?_⟩
        simpa using h6.2
    · split at h
      · -- early_month
        obtain ⟨h1, h2, h3, h4⟩ := drawSimpleDates_mem _ _ _ _ _ _ _ _
          (by omega) dt (sortDates_mem _ _ h)
        exact ⟨h1, h2, h3, by omega⟩
      · split at h
        · -- weekend
          rcases fillDates_mem _ _ _ _ _ _ _ _ (by omega) dt
              (sortDates_mem _ _ h) with h' | h'
          · rcases biasedTryLoop_mem _ _ _ _ _ _ _ _ _ _ _ (by omega) dt h'
              with h'' | h''
            · simp at h''
            · exact ⟨h''.1, h''.2.1, h''.2.2.1, h''.2.2.2⟩
          · exact ⟨h'.1, h'.2.1, h'.2.2.1, h'.2.2.2⟩
        · split at h
          · -- weekday
            rcases fillDates_mem _ _ _ _ _ _ _ _ (by omega) dt
                (sortDates_mem _ _ h) with h' | h'
            · rcases biasedTryLoop_mem _ _ _ _ _ _ _ _ _ _ _ (by omega) dt h'
                with h'' | h''
              · simp at h''
              · exact ⟨h''.1, h''.2.1, h''.2.2.1, h''.2.2.2⟩
            · exact ⟨h'.1, h'.2.1, h'.2.2.1, h'.2.2.2⟩
          · split at h
            · -- mid_to_late_month
              obtain ⟨h1, h2, h3, h4⟩ := drawSimpleDates_mem _ _ _ _ _ _ _ _
                (by omega) dt (sortDates_mem _ _ h)
              refine ⟨h1, h2, by omega, by omega⟩
            · -- uniform / random
              obtain ⟨h1, h2, h3, h4⟩ := drawSimpleDates_mem _ _ _ _ _ _ _ _
                (by omega) dt (sortDates_mem _ _ h)
              exact ⟨h1, h2, h3, h4⟩

theorem buildTransactions_dates (cfg : CatConfig) (c : String) (y m : Nat)
    (ds : List DateTimeV) (amts : List ℤ) (i : Nat) (g : Rng) :
    ∀ t ∈ (buildTransactions cfg c y m ds amts i g).1,
      t.date ∈ ds ∨ t.date = ⟨y, m, 1, 12, 0⟩ := by
  induction amts generalizing i g with
  | nil => intro t h; simp [buildTransactions] at h
  | cons a rest ih =>
    intro t h
    unfold buildTransactions at h
    dsimp only at h
    rcases List.mem_cons.1 h with h' | h'
    · rw [h']
      dsimp only
      by_cases hi : i < ds.length
      · exact Or.inl (getD_mem_of_lt _ _ _ hi)
      · rw [List.getD_eq_default _ _ (le_of_not_lt hi)]
        by_cases hds : ds = []
        · right
          rw [hds]
          rfl
        · exact Or.inl (getLastD_mem _ _ hds)
    · exact ih _ _ t h'

theorem lookup_mem_values {β : Type} (l : List (String × β)) (a : String)
    (b : β) (h : l.lookup a = some b) : b ∈ l.map Prod.snd := by
  induction l with
  | nil => simp [List.lookup] at h
  | cons p t ih =>
    cases p with
    | mk k v =>
      by_cases hak : a = k
      · have : (a == k) = true := beq_iff_eq.2 hak
        simp only [List.lookup, this] at h
        simp [← Option.some_injective _ h]
      · have hbe : (a == k) = false := beq_eq_false_iff_ne.2 hak
        simp only [List.lookup, hbe] at h
        exact List.mem_cons_of_mem _ (ih h)

theorem model_specific_days_pos :
    ∀ b ∈ TRANSACTION_MODEL.map Prod.snd, ∀ d ∈ b.specific_days.getD [],
      1 ≤ d := by decide

/-- C5: every generated transaction's timestamp falls inside its source row's
month: for every (year, month), every emitted date satisfies
`1 ≤ day ≤ days_in_month(year, month)`, under every date-bias policy (fixed,
early_month, weekend, weekday, mid_to_late_month, uniform/random). -/
theorem date_containment (user : String) (month year : Nat) (cat : String)
    (total_amount : ℚ) (arch : String) (g : Rng)
    (hcat : cat ∈ EXPENSE_CATEGORIES) :
    ∀ t ∈ (generate_transactions_for_category user month year cat total_amount
        arch g).1, inMonth year month t.date := by
  obtain ⟨cfg, hcfg⟩ := lookup_of_mem_keys TRANSACTION_MODEL cat hcat
  have hdays : ∀ d ∈ cfg.specific_days.getD [], 1 ≤ d :=
    model_specific_days_pos cfg (lookup_mem_values _ _ _ hcfg)
  intro t ht
  unfold generate_transactions_for_category at ht
  split at ht
  · simp at ht
  · rw [hcfg] at ht
    dsimp only at ht
    rcases buildTransactions_dates _ _ _ _ _ _ _ _ t ht with hd | hd
    · exact dates_in_month _ _ _ _ _ _ hdays _ hd
    · rw [hd]
      refine ⟨rfl, rfl, le_refl 1, ?_⟩
      show (1 : Nat) ≤ get_days_in_month year month
      have := dim_ge_28 year month
      omega

/-- Witness for C5: a concrete subscriptions unit (fixed-day bias) in
May 2024. -/
theorem date_containment_witness :
    "subscriptions_expense" ∈ EXPENSE_CATEGORIES ∧
    ∀ t ∈ (generate_transactions_for_category "u1" 5 2024
        "subscriptions_expense" 300 "" zeroStream).1, inMonth 2024 5 t.date :=
  ⟨by decide,
    date_containment "u1" 5 2024 "subscriptions_expense" 300 "" zeroStream
      (by decide)⟩

/-! ### Transaction identifiers -/

theorem undigit_digitChar10 (d : Nat) (h : d < 10) :
    undigit (digitChar10 d) = d := by
  unfold undigit digitChar10
  interval_cases d <;> decide

theorem ofDigits_replicate_zero (k : Nat) :
    Nat.ofDigits 10 (List.replicate k 0) = 0 := by
  induction k with
  | zero => rfl
  | succ k ih => simp [List.replicate_succ, Nat.ofDigits_cons, ih]

theorem decode_pad8 (n : Nat) : decodeChars (pad8 n).data = n := by
  unfold pad8 decodeChars
  dsimp only
  rw [List.map_append, List.map_reverse, List.map_map]
  have h1 : (List.replicate (8 - ((Nat.digits 10 n).map digitChar10).length)
      '0').map undigit
      = List.replicate (8 - ((Nat.digits 10 n).map digitChar10).length) 0 := by
    rw [List.map_replicate]
    rfl
  have h2 : (Nat.digits 10 n).map (undigit ∘ digitChar10) = Nat.digits 10 n := by
    have := List.map_congr_left (l := Nat.digits 10 n)
      (f := undigit ∘ digitChar10) (g := id)
      (fun a ha => undigit_digitChar10 a (Nat.digits_lt_base (by omega) ha))
    rw [this, List.map_id]
  rw [h1, h2, List.reverse_append, List.reverse_reverse, List.reverse_replicate,
    Nat.ofDigits_append, Nat.ofDigits_digits, ofDigits_replicate_zero]
  ring

theorem txnId_inj (a b : Nat) (h : txnId a = txnId b) : a = b := by
  have hd : (txnId a).data = (txnId b).data := by rw [h]
  unfold txnId at hd
  rw [String.data_append, String.data_append] at hd
  have hp : (pad8 a).data = (pad8 b).data := List.append_cancel_left hd
  have := decode_pad8 a
  rw [hp, decode_pad8 b] at this
  exact this.symm

theorem emitRows_length (counter : Nat) (u : String) (m : ℤ) (ts : List Txn) :
    (emitRows counter u m ts).length = ts.length := by
  induction ts generalizing counter with
  | nil => rfl
  | cons t ts ih => simp [emitRows, ih]

theorem emitRows_get (counter : Nat) (u : String) (m : ℤ) (ts : List Txn) :
    ∀ i (h : i < (emitRows counter u m ts).length),
      ((emitRows counter u m ts).get ⟨i, h⟩).transaction_id
        = txnId (counter + i) := by
  induction ts generalizing counter with
  | nil => intro i h; simp [emitRows] at h
  | cons t ts ih =>
    intro i h
    cases i with
    | zero => rfl
    | succ j =>
      have hj : j < (emitRows (counter + 1) u m ts).length := by
        simpa [emitRows] using h
      have := ih (counter + 1) j hj
      simp only [emitRows, List.get_cons_succ]
      rw [this]
      congr 1
      omega

theorem ids_append (c : Nat) (o1 o2 : List OutRow)
    (h1 : ∀ i (h : i < o1.length),
      (o1.get ⟨i, h⟩).transaction_id = txnId (c + i))
    (h2 : ∀ i (h : i < o2.length),
      (o2.get ⟨i, h⟩).transaction_id = txnId (c + o1.length + i)) :
    ∀ i (h : i < (o1 ++ o2).length),
      ((o1 ++ o2).get ⟨i, h⟩).transaction_id = txnId (c + i) := by
  intro i h
  rw [List.length_append] at h
  by_cases hi : i < o1.length
  · rw [List.get_append _ hi]
    exact h1 i hi
  · have hj : i - o1.length < o2.length := by omega
    have hget : (o1 ++ o2).get ⟨i, by rw [List.length_append]; omega⟩
        = o2.get ⟨i - o1.length, hj⟩ := by
      apply List.get_append_right
      omega
    rw [hget, h2 (i - o1.length) hj]
    congr 1
    omega

theorem processUnit_ids (u arch : String) (mo yr : Nat) (midx : ℤ)
    (cat : String) (ta : ℚ) (counter : Nat) (g : Rng) :
    (processUnit u arch mo yr midx cat ta counter g).1
      = counter + (processUnit u arch mo yr midx cat ta counter g).2.1.length ∧
    ∀ i (h : i < (processUnit u arch mo yr midx cat ta counter g).2.1.length),
      ((processUnit u arch mo yr midx cat ta counter g).2.1.get
        ⟨i, h⟩).transaction_id = txnId (counter + i) := by
  by_cases hta : ta ≤ 0
  · simp only [processUnit, if_pos hta]
    exact ⟨rfl, fun i h => absurd h (by simp)⟩
  · have heq : processUnit u arch mo yr midx cat ta counter g
        = (counter + (generate_transactions_for_category u mo yr cat ta
            arch g).1.length,
          emitRows counter u midx
            (generate_transactions_for_category u mo yr cat ta arch g).1,
          (generate_transactions_for_category u mo yr cat ta arch g).2) := by
      simp only [processUnit, if_neg hta]
    rw [heq]
    exact ⟨by rw [emitRows_length], emitRows_get counter u midx _⟩

theorem processCats_ids (u arch : String) (mo yr : Nat) (midx : ℤ)
    (exp : String → ℚ) (cats : List String) (counter : Nat) (g : Rng) :
    (processCats u arch mo yr midx exp cats counter g).1
      = counter + (processCats u arch mo yr midx exp cats counter g).2.1.length ∧
    ∀ i (h : i < (processCats u arch mo yr midx exp cats counter g).2.1.length),
      ((processCats u arch mo yr midx exp cats counter g).2.1.get
        ⟨i, h⟩).transaction_id = txnId (counter + i) := by
  induction cats generalizing counter g with
  | nil => exact ⟨rfl, fun i h => absurd h (by simp [processCats])⟩
  | cons c cs ih =>
    obtain ⟨hu1, hu2⟩ := processUnit_ids u arch mo yr midx c (exp c) counter g
    obtain ⟨hr1, hr2⟩ := ih
      (processUnit u arch mo yr midx c (exp c) counter g).1
      (processUnit u arch mo yr midx c (exp c) counter g).2.2
    constructor
    · show (processCats u arch mo yr midx exp (c :: cs) counter g).1 = _
      unfold processCats
      dsimp only
      rw [hr1, List.length_append]
      omega
    · show ∀ i (h : _), _
      unfold processCats
      dsimp only
      apply ids_append
      · exact hu2
      · intro i h
        rw [hr2 i h]
        congr 1
        omega

theorem processRows_ids (rows : List InputRow) (counter : Nat) (g : Rng)
    (c' : Nat) (out : List OutRow) (g' : Rng)
    (hok : processRows rows counter g = .ok (c', out, g')) :
    c' = counter + out.length ∧
    ∀ i (h : i < out.length),
      (out.get ⟨i, h⟩).transaction_id = txnId (counter + i) := by
  induction rows generalizing counter g c' out g' with
  | nil =>
    simp only [processRows, Except.ok.injEq, Prod.mk.injEq] at hok
    obtain ⟨h1, h2, h3⟩ := hok
    subst h1
    subst h2
    exact ⟨by simp, fun i h => absurd h (by simp)⟩
  | cons row rows ih =>
    unfold processRows at hok
    cases hres : resolveMonth row with
    | error e => rw [hres] at hok; simp at hok
    | ok ym =>
      rw [hres] at hok
      dsimp only at hok
      cases hrest : processRows rows
          (processCats row.user_id row.user_archetype ym.2 ym.1
            row.month_index row.expenses EXPENSE_CATEGORIES counter g).1
          (processCats row.user_id row.user_archetype ym.2 ym.1
            row.month_index row.expenses EXPENSE_CATEGORIES counter g).2.2 with
      | error e => rw [hrest] at hok; simp at hok
      | ok rest =>
        obtain ⟨rc, rout, rg⟩ := rest
        rw [hrest] at hok
        simp only [Except.ok.injEq, Prod.mk.injEq] at hok
        obtain ⟨hc, hout, hg⟩ := hok
        obtain ⟨hp1, hp2⟩ := processCats_ids row.user_id row.user_archetype
          ym.2 ym.1 row.month_index row.expenses EXPENSE_CATEGORIES counter g
        obtain ⟨hr1, hr2⟩ := ih _ _ _ _ _ hrest
        subst hout
        constructor
        · rw [← hc, hr1, hp1, List.length_append]
          omega
        · apply ids_append
          · exact hp2
          · intro i h
            rw [hr2 i h, hp1]

/-- C6: across a run of the streaming driver, every transaction identifier has
the form `TXN-` + 8-digit zero-padded sequence number (`txnId`), the `i`-th
emitted transaction carries sequence number `1 + i` — so the counter advances
by exactly one per emitted transaction and the numbers are strictly increasing
in emission order — and all identifiers are pairwise distinct. -/
theorem txn_id_uniqueness (rows : List InputRow) (g : Rng) (out : List OutRow)
    (hrun : generate_all_transactions_stream rows g = .ok out) :
    (∀ i (h : i < out.length),
      (out.get ⟨i, h⟩).transaction_id = txnId (1 + i)) ∧
    (∀ i j (hi : i < out.length) (hj : j < out.length), i < j →
      (out.get ⟨i, hi⟩).transaction_id ≠ (out.get ⟨j, hj⟩).transaction_id) := by
  unfold generate_all_transactions_stream at hrun
  cases hpr : processRows rows 1 g with
  | error e => rw [hpr] at hrun; simp [Except.map] at hrun
  | ok r =>
    rw [hpr] at hrun
    simp only [Except.map, Except.ok.injEq] at hrun
    obtain ⟨_, hids⟩ := processRows_ids rows 1 g r.1 r.2.1 r.2.2
      (by rw [hpr])
    rw [hrun] at hids
    refine ⟨hids, ?_⟩
    intro i j hi hj hij
    rw [hids i hi, hids j hj]
    intro hcon
    have := txnId_inj _ _ hcon
    omega

/-- Witness for C6 at a concrete (empty-input) run. -/
theorem txn_id_uniqueness_witness :
    generate_all_transactions_stream [] zeroStream = .ok [] ∧
    ((∀ i (h : i < ([] : List OutRow).length),
      (([] : List OutRow).get ⟨i, h⟩).transaction_id = txnId (1 + i)) ∧
    (∀ i j (hi : i < ([] : List OutRow).length)
        (hj : j < ([] : List OutRow).length), i < j →
      (([] : List OutRow).get ⟨i, hi⟩).transaction_id
        ≠ (([] : List OutRow).get ⟨j, hj⟩).transaction_id)) :=
  ⟨rfl, txn_id_uniqueness [] zeroStream [] rfl⟩

/-! ### Determinism and month-fallback -/

/-- C7: two runs of the generator with the same seed and the same input
dataset produce identical output: the full emitted transaction sequence is a
function of the seed and the input rows alone — all randomness flows from the
single process-wide generator seeded once at start, threaded explicitly
through every synthesis step of the embedding. -/
theorem run_determinism (seed1 seed2 : Nat) (rows1 rows2 : List InputRow)
    (hs : seed1 = seed2) (hr : rows1 = rows2) :
    runGenerator seed1 rows1 = runGenerator seed2 rows2 := by
  rw [hs, hr]

/-- Witness for C7: the reference seed 42 on a concrete input. -/
theorem run_determinism_witness :
    runGenerator 42 [] = runGenerator 42 [] :=
  run_determinism 42 42 [] [] rfl rfl

/-- C9 counterexample: a row whose `month_start_date` fails to parse and whose
`month_index` is 13 raises `ValueError` and aborts the entire run — refuting
the claim that a per-row date-parsing failure never aborts the run. -/
theorem date_fallback_counterexample :
    generate_all_transactions_stream [badIndexRow] zeroStream
      = .error "month_index out of range and month_start_date parse failed" :=
  rfl

/-- C9 (amended): for every input row whose `month_start_date` fails to parse,
the driver recovers via the fixed lookup table 1 ↦ (2024, 5), …,
12 ↦ (2025, 4) when `month_index` lies in 1..12; when `month_index` is also
out of range, the row raises `ValueError`, which aborts the run. -/
theorem date_fallback_amended (row : InputRow)
    (hparse : row.month_start_date = none) :
    (1 ≤ row.month_index ∧ row.month_index ≤ 12 →
      resolveMonth row
        = .ok (month_order.getD (row.month_index - 1).toNat (0, 0))) ∧
    (¬ (1 ≤ row.month_index ∧ row.month_index ≤ 12) →
      resolveMonth row
        = .error "month_index out of range and month_start_date parse failed") := by
  constructor
  · intro hrange
    unfold resolveMonth
    rw [hparse]
    dsimp only
    rw [if_pos hrange]
  · intro hrange
    unfold resolveMonth
    rw [hparse]
    dsimp only
    rw [if_neg hrange]

/-- Witness for the amended C9: an unparseable date with `month_index = 3`
resolves to July 2024 via the lookup table. -/
theorem date_fallback_amended_witness :
    fallbackRow.month_start_date = none ∧
    resolveMonth fallbackRow = .ok (2024, 7) :=
  ⟨rfl,
    by
      have h := (date_fallback_amended fallbackRow rfl).1 (by norm_num [fallbackRow])
      simpa [month_order, fallbackRow] using h⟩
